import Mathlib

/-!
Verification development for the life-management scheduling core:
the keyword classifier (src/api/index.py, class TaskService) and the
slot synthesis / slot selection / sequencing / quality engine
(src/backend/pipeline/scheduler.py).

Times are modelled as minutes (integers); Python datetimes enter the
core only at whole-minute granularity here because `find_slots_for_date`
rebuilds its boundaries with `date.replace(hour=h, minute=0, second=0)`.
Python `float` arithmetic appears only in the slot-utilization test
(`task_duration / slot.duration_minutes` compared against 0.6, 0.8, 1.0);
it is modelled with exact rationals, which agree with IEEE doubles on all
integer operand pairs of realistic size since the rational gap to each
threshold is at least `1/(5*duration)`, far above double rounding error.
-/

namespace LifeMS

/-! ### Substring matching

The Python `keyword in text` membership test on strings, modelled on the
character lists underlying `String`.  The classifier calls
`text.lower()` before matching, but every keyword involved is a CJK
string; Unicode lowercasing maps every CJK character to itself and never
produces a CJK character from a non-CJK one, so matching a CJK keyword
against `text.lower()` and against `text` are equivalent, and the
embedding matches against the text directly. -/

/-- Does `needle` occur at the head of `haystack`? -/
def subAt : List Char → List Char → Bool
  | [], _ => true
  | _ :: _, [] => false
  | c :: cs, d :: ds => c == d && subAt cs ds

/-- Does `needle` occur anywhere in `haystack` (Python `needle in haystack`)? -/
def hasSub (needle : List Char) : List Char → Bool
  | [] => needle.isEmpty
  | d :: ds => subAt needle (d :: ds) || hasSub needle ds

/-- Python `needle in haystack` on strings. -/
def strIn (needle haystack : String) : Bool :=
  hasSub needle.data haystack.data

/-- Python `any(keyword in text for keyword in words)`. -/
def anyIn (words : List String) (text : String) : Bool :=
  words.any fun w => strIn w text

/-! ### Heuristic classifier (src/api/index.py, TaskService) -/

/-- Keyword set for the academic domain (`_classify_domain`). -/
def academic_keywords : List String :=
  ["学习", "研究", "论文", "课程", "学术", "读书", "复习", "考试"]

/-- Keyword set for the income domain (`_classify_domain`). -/
def income_keywords : List String :=
  ["工作", "赚钱", "收入", "项目", "客户", "业务", "会议", "报告"]

/-- Keyword set for the growth domain (`_classify_domain`). -/
def growth_keywords : List String :=
  ["锻炼", "阅读", "技能", "成长", "练习", "提升", "学会", "掌握"]

/-- Embeds `TaskService._classify_domain`: first matching keyword set wins,
default `"life"`. -/
def _classify_domain (text : String) : String :=
  if anyIn academic_keywords text then "academic"
  else if anyIn income_keywords text then "income"
  else if anyIn growth_keywords text then "growth"
  else "life"

/-- Lookup `domain_configs[domain]["priority_boost"]` with the
`.get(domain, ...).get("priority_boost", 0)` default of the source. -/
def priority_boost : String → Int
  | "academic" => 1
  | "income" => 2
  | "growth" => 0
  | "life" => 0
  | _ => 0

/-- Embeds `TaskService._estimate_priority`: keyword-adjusted base priority,
minus the domain boost, clamped to `[1, 5]`. -/
def _estimate_priority (text : String) (domain : String) : Int :=
  let base_priority : Int :=
    if anyIn ["紧急", "重要", "立即", "马上"] text then 1
    else if anyIn ["今天", "今日", "尽快"] text then 2
    else if anyIn ["有空", "闲时", "可选"] text then 4
    else 3
  max 1 (min 5 (base_priority - priority_boost domain))

/-- Per-domain base duration table of `_estimate_duration`
(`.get(domain, 30)` default). -/
def base_duration : String → Int
  | "academic" => 60
  | "income" => 45
  | "growth" => 40
  | "life" => 30
  | _ => 30

/-- Duration-adjustment markers: write/compose/organize/analyze. -/
def write_markers : List String := ["写", "创作", "整理", "分析"]

/-- Duration-adjustment markers: reply/contact/call. -/
def reply_markers : List String := ["回复", "联系", "打电话"]

/-- Duration-adjustment markers: meeting/discuss/interview. -/
def meeting_markers : List String := ["会议", "讨论", "面试"]

/-- Embeds `TaskService._estimate_duration`: per-domain base, then a single
first-match-wins keyword adjustment. -/
def _estimate_duration (text : String) (domain : String) : Int :=
  let base := base_duration domain
  if anyIn write_markers text then base + 15
  else if anyIn reply_markers text then max 15 (base - 15)
  else if anyIn meeting_markers text then base + 30
  else base

/-- Restatement of the duration rule in the words of the specification:
start from the given base; add 15 for a write marker; else subtract 15
with a floor of 15 for a reply marker; else add 30 for a meeting
marker; else keep the base.  Exactly one branch (or none) applies,
checked in this order. -/
def spec_duration_adjust (text : String) (base : Int) : Int :=
  if anyIn write_markers text then base + 15
  else if anyIn reply_markers text then max 15 (base - 15)
  else if anyIn meeting_markers text then base + 30
  else base

/-! ### Time slots (src/backend/pipeline/scheduler.py, TimeSlot / TimeSlotFinder)

`start` and `stop` are minutes since midnight of the synthesis day
(the dataclass field is named `end`, a Lean keyword, hence `stop`).
Existing scheduled tasks enter only as their `[scheduled_start,
scheduled_end)` intervals, likewise in minutes. -/

/-- The `TimeSlot` dataclass. -/
structure TimeSlot where
  start : Nat
  stop : Nat
  domain : String
  available : Bool := true
  energy_level : Int := 5
deriving DecidableEq, Repr

/-- Embeds `TimeSlot.duration_minutes`: exact for whole-minute timestamps
(`int(...total_seconds()/60)` truncates nothing there). -/
def duration_minutes (s : TimeSlot) : Int :=
  (s.stop : Int) - (s.start : Int)

/-- The hour→domain rule inside `find_slots_for_date`. -/
def hour_domain (hour : Nat) : String :=
  if 6 ≤ hour ∧ hour < 10 then "academic"
  else if 10 ≤ hour ∧ hour < 14 then "income"
  else if 14 ≤ hour ∧ hour < 18 then "growth"
  else "life"

/-- The conflict scan of `find_slots_for_date`: the slot is unavailable
when some existing task interval overlaps it
(`not (slot_end <= task_start or current >= task_end)`). -/
def conflicts (existing_tasks : List (Nat × Nat)) (current slot_end : Nat) : Bool :=
  existing_tasks.any fun t => !(slot_end ≤ t.1 || current ≥ t.2)

/-- The per-day-part `while current < end` loop of `find_slots_for_date`:
emit a slot every 30 minutes, clipped to the end of the day-part. -/
def make_slots (existing_tasks : List (Nat × Nat)) (energy : Int)
    (current stop : Nat) : List TimeSlot :=
  if current < stop then
    let slot_end := min (current + 30) stop
    ⟨current, slot_end, hour_domain (current / 60),
      !conflicts existing_tasks current slot_end, energy⟩ ::
      make_slots existing_tasks energy slot_end stop
  else []
termination_by stop - current
decreasing_by simp_wf; omega

/-- Embeds `TimeSlotFinder._exclude_meal_times`: drop slots starting in hour 12
(lunch) or hour 18 (dinner). -/
def _exclude_meal_times (slots : List TimeSlot) : List TimeSlot :=
  slots.filter fun s => !(s.start / 60 == 12) && !(s.start / 60 == 18)

/-- Embeds `TimeSlotFinder.find_slots_for_date`: sweep the three day-part
templates (morning 6–12 at energy 8, afternoon 13–18 at energy 6,
evening 19–22 at energy 4; the per-template `domains` lists are never read
by the code), then exclude meal times.  `date.replace(hour=h, minute=0,
second=0)` makes each day-part boundary the exact minute `h * 60`. -/
def find_slots_for_date (existing_tasks : List (Nat × Nat)) : List TimeSlot :=
  _exclude_meal_times
    (make_slots existing_tasks 8 (6 * 60) (12 * 60) ++
      make_slots existing_tasks 6 (13 * 60) (18 * 60) ++
      make_slots existing_tasks 4 (19 * 60) (22 * 60))

/-! ### Slot selection (TimeSlotFinder.find_best_slot_for_task) -/

/-- The scoring block of `find_best_slot_for_task`.  The utilization
quotient is Python float division, modelled exactly in `ℚ` (see header
note); Python raises `ZeroDivisionError` when a qualifying slot has zero
duration, which is impossible once `0 < task_duration`. -/
def score (task_duration : Int) (domain : String) (priority : Int)
    (slot : TimeSlot) : Int :=
  let domain_score : Int := if slot.domain == domain then 10 else 0
  let energy_score : Int :=
    if priority ≥ 4 ∧ slot.energy_level ≥ 7 then 5
    else if priority ≤ 2 ∧ slot.energy_level ≤ 5 then 3
    else 0
  let utilization : ℚ := (task_duration : ℚ) / (duration_minutes slot : ℚ)
  let utilization_score : Int :=
    if (4 / 5 : ℚ) ≤ utilization ∧ utilization ≤ 1 then 8
    else if (3 / 5 : ℚ) ≤ utilization ∧ utilization < 4 / 5 then 5
    else 0
  domain_score + energy_score + utilization_score

/-- The qualification filter of `find_best_slot_for_task`. -/
def suitable (task_duration : Int) (s : TimeSlot) : Bool :=
  s.available && decide (task_duration ≤ duration_minutes s)

/-- First maximal element under `f` of `init :: l`: the fold keeps the
incumbent on ties, so it lands on the first element attaining the
maximal score — the element the Python stable descending sort puts at
index 0. -/
def pick_best (f : TimeSlot → Int) (init : TimeSlot) : List TimeSlot → TimeSlot :=
  List.foldl (fun best cur => if f best < f cur then cur else best) init

/-- Embeds `TimeSlotFinder.find_best_slot_for_task`: filter to suitable slots,
return `none` when none qualify, else the best-scoring slot.  The source
sorts stably by descending score and takes index 0, i.e. the first
suitable slot attaining the maximal score; `pick_best` keeps the
incumbent on ties, computing exactly that element. -/
def find_best_slot_for_task (task_duration : Int) (domain : String)
    (available_slots : List TimeSlot) (priority : Int) : Option TimeSlot :=
  match available_slots.filter (suitable task_duration) with
  | [] => none
  | s :: rest => some (pick_best (score task_duration domain priority) s rest)

/-! ### The concrete shape of a synthesized day

Whatever the existing-task list, the synthesized slots of a day have
fixed boundaries, domains and energy levels; only the `available` flags
depend on the tasks.  `slot_shape` projects a slot onto those
task-independent components. -/

/-- Task-independent components of a slot. -/
def slot_shape (s : TimeSlot) : Nat × Nat × String × Int :=
  (s.start, s.stop, s.domain, s.energy_level)

/-- Shapes of the morning sweep (6:00–12:00). -/
def morning_shape : List (Nat × Nat × String × Int) :=
  [(360,390,"academic",8),(390,420,"academic",8),(420,450,"academic",8),(450,480,"academic",8),
   (480,510,"academic",8),(510,540,"academic",8),(540,570,"academic",8),(570,600,"academic",8),
   (600,630,"income",8),(630,660,"income",8),(660,690,"income",8),(690,720,"income",8)]

/-- Shapes of the afternoon sweep (13:00–18:00). -/
def afternoon_shape : List (Nat × Nat × String × Int) :=
  [(780,810,"income",6),(810,840,"income",6),(840,870,"growth",6),(870,900,"growth",6),
   (900,930,"growth",6),(930,960,"growth",6),(960,990,"growth",6),(990,1020,"growth",6),
   (1020,1050,"growth",6),(1050,1080,"growth",6)]

/-- Shapes of the evening sweep (19:00–22:00). -/
def evening_shape : List (Nat × Nat × String × Int) :=
  [(1140,1170,"life",4),(1170,1200,"life",4),(1200,1230,"life",4),
   (1230,1260,"life",4),(1260,1290,"life",4),(1290,1320,"life",4)]

/-- Shapes of a whole synthesized day, in emission order. -/
def day_shape : List (Nat × Nat × String × Int) :=
  morning_shape ++ afternoon_shape ++ evening_shape

/-! ### Task sequencing (ScheduleOptimizer.optimize_task_sequence)

Tasks reach the optimizer as dicts; only `task.get("domain", "life")`
and `task.get("priority", 3)` are read, so a task is modelled as those
two possibly-absent fields plus an opaque payload `id` standing for the
rest of the dict. -/

/-- A task dict as seen by `optimize_task_sequence`. -/
structure PTask where
  domain : Option String := none
  priority : Option Int := none
  id : Nat := 0
deriving DecidableEq, Repr

/-- Reads `task.get("domain", "life")`. -/
def task_domain (t : PTask) : String := t.domain.getD "life"

/-- Reads `task.get("priority", 3)`. -/
def task_priority (t : PTask) : Int := t.priority.getD 3

/-- The fixed concatenation order of `optimize_task_sequence`. -/
def domains_order : List String := ["academic", "income", "growth", "life"]

/-- Position of a domain in the fixed concatenation order (used only to
state that the optimized sequence is sorted by that order). -/
def dom_rank : String → Nat
  | "academic" => 0
  | "income" => 1
  | "growth" => 2
  | "life" => 3
  | _ => 4

/-- Stable descending insertion: place `x` before the first element
whose priority is at most that of `x`.  Folded over the group from the right
this computes exactly the Python stable `sort(key=priority, reverse=True)`
(equal priorities keep their original relative order). -/
def insert_desc (x : PTask) : List PTask → List PTask
  | [] => [x]
  | y :: ys =>
    if task_priority y ≤ task_priority x then x :: y :: ys
    else y :: insert_desc x ys

/-- Stable sort by priority descending. -/
def sort_desc (l : List PTask) : List PTask :=
  l.foldr insert_desc []

/-- Embeds `ScheduleOptimizer.optimize_task_sequence`: return lists of length
at most 1 unchanged; otherwise group by domain (dict grouping keeps
input order inside a group, i.e. each group is a `filter`), sort each
group by priority descending (stable), and concatenate the groups that
exist in the fixed order academic, income, growth, life. -/
def optimize_task_sequence (tasks : List PTask) : List PTask :=
  if tasks.length ≤ 1 then tasks
  else
    domains_order.foldr
      (fun d acc => sort_desc (tasks.filter fun t => task_domain t == d) ++ acc) []

/-! ### Schedule quality (ScheduleOptimizer.calculate_schedule_quality)

Only `item.get("domain", "life")` and `item.get("duration_minutes", 0)`
are read from a schedule item.  The function first accumulates
`domain_times`, a dict keyed by exactly the four domains: an item whose
domain is any other string raises `KeyError` there, modelled as `none`.
The switch-cost loop itself looks adjacent distinct-domain pairs up in
`switch_cost` with default 15 — but it is only reached when every
domain was one of the four.  The float-valued balance/efficiency/
quality scores are downstream of these claims and not modelled. -/

/-- A schedule item as seen by `calculate_schedule_quality`. -/
structure SchedItem where
  domain : Option String := none
  duration_minutes : Option Int := none
deriving DecidableEq, Repr

/-- Reads `item.get("domain", "life")`. -/
def item_domain (it : SchedItem) : String := it.domain.getD "life"

/-- Reads `item.get("duration_minutes", 0)`. -/
def item_duration (it : SchedItem) : Int := it.duration_minutes.getD 0

/-- The `switch_cost` table of `ScheduleOptimizer.__init__`, keyed by
sorted domain pairs. -/
def switch_cost : List ((String × String) × Nat) :=
  [(("academic", "income"), 10),
   (("academic", "growth"), 15),
   (("academic", "life"), 20),
   (("income", "growth"), 10),
   (("income", "life"), 15),
   (("growth", "life"), 10)]

/-- Lexicographic code-point comparison of character lists: the Python
`<=` on strings. -/
def chars_le : List Char → List Char → Bool
  | [], _ => true
  | _ :: _, [] => false
  | c :: cs, d :: ds =>
    if c.toNat < d.toNat then true
    else if d.toNat < c.toNat then false
    else chars_le cs ds

/-- Evaluate `tuple(sorted([a, b]))`: the two strings in Python lexicographic
code-point order. -/
def sorted_pair (a b : String) : String × String :=
  if chars_le a.data b.data then (a, b) else (b, a)

/-- Embeds `self.switch_cost.get(cost_key, 15)`. -/
def switch_cost_lookup (key : String × String) : Nat :=
  ((switch_cost.find? fun e => e.1 == key).map fun e => e.2).getD 15

/-- The switch-cost loop: fold over adjacent item pairs, charging
distinct-domain transitions via the table lookup. -/
def switch_cost_total (schedule : List SchedItem) : Nat :=
  (schedule.zip schedule.tail).foldl
    (fun acc p =>
      if item_domain p.1 ≠ item_domain p.2 then
        acc + switch_cost_lookup (sorted_pair (item_domain p.1) (item_domain p.2))
      else acc)
    0

/-- One step of the `domain_times` accumulation: `KeyError` (`none`)
unless the domain of the item is one of the four dict keys. -/
def add_domain_time (acc : Int × Int × Int × Int) (it : SchedItem) :
    Option (Int × Int × Int × Int) :=
  match item_domain it with
  | "academic" => some (acc.1 + item_duration it, acc.2.1, acc.2.2.1, acc.2.2.2)
  | "income" => some (acc.1, acc.2.1 + item_duration it, acc.2.2.1, acc.2.2.2)
  | "growth" => some (acc.1, acc.2.1, acc.2.2.1 + item_duration it, acc.2.2.2)
  | "life" => some (acc.1, acc.2.1, acc.2.2.1, acc.2.2.2 + item_duration it)
  | _ => none

/-- The `domain_times` accumulation over the schedule, in order. -/
def domain_times (schedule : List SchedItem) : Option (Int × Int × Int × Int) :=
  schedule.foldlM add_domain_time (0, 0, 0, 0)

/-- The fields of the quality dict settled by these claims
(academic/income/growth/life minutes, and the total switch cost). -/
structure QualityResult where
  switch_total : Nat
  distribution : Int × Int × Int × Int
deriving DecidableEq, Repr

/-- Embeds `ScheduleOptimizer.calculate_schedule_quality`: the empty schedule
short-circuits to all-zero metrics (that branch emits no
`domain_distribution`; zeros stand in here); otherwise the
`domain_times` accumulation runs first — `none` models its `KeyError`
on a foreign domain — and the switch-cost loop after it. -/
def calculate_schedule_quality (schedule : List SchedItem) : Option QualityResult :=
  if schedule.isEmpty then some ⟨0, (0, 0, 0, 0)⟩
  else (domain_times schedule).map fun dt => ⟨switch_cost_total schedule, dt⟩

/-- Adjacent-pair cost in the words of the specification: same-domain pairs
cost 0, the six listed pairs cost their tabled value symmetrically, and
any unlisted pair costs 0. -/
def spec_pair_cost (a b : String) : Nat :=
  if a = b then 0
  else
    match sorted_pair a b with
    | ("academic", "income") => 10
    | ("academic", "growth") => 15
    | ("academic", "life") => 20
    | ("growth", "income") => 10
    | ("income", "life") => 15
    | ("growth", "life") => 10
    | _ => 0

/-- Total switch cost in the words of the specification: the sum of
`spec_pair_cost` over adjacent pairs. -/
def spec_switch_total (schedule : List SchedItem) : Nat :=
  (schedule.zip schedule.tail).foldl
    (fun acc p => acc + spec_pair_cost (item_domain p.1) (item_domain p.2)) 0

/-! ## Theorems -/

theorem morning_shape_eq (tasks : List (Nat × Nat)) :
    (make_slots tasks 8 (6*60) (12*60)).map slot_shape = morning_shape := by
  simp [make_slots, hour_domain, slot_shape, morning_shape]

theorem afternoon_shape_eq (tasks : List (Nat × Nat)) :
    (make_slots tasks 6 (13*60) (18*60)).map slot_shape = afternoon_shape := by
  simp [make_slots, hour_domain, slot_shape, afternoon_shape]

theorem evening_shape_eq (tasks : List (Nat × Nat)) :
    (make_slots tasks 4 (19*60) (22*60)).map slot_shape = evening_shape := by
  simp [make_slots, hour_domain, slot_shape, evening_shape]

theorem big_shape_eq (tasks : List (Nat × Nat)) :
    ((make_slots tasks 8 (6*60) (12*60) ++ make_slots tasks 6 (13*60) (18*60) ++
      make_slots tasks 4 (19*60) (22*60)).map slot_shape) = day_shape := by
  rw [List.map_append, List.map_append, morning_shape_eq, afternoon_shape_eq,
    evening_shape_eq, day_shape]

/-- The meal-time filter drops nothing (no slot starts in hour 12 or
18), and the emitted slots have exactly the `day_shape` boundaries,
domains and energies, for every existing-task list. -/
theorem find_slots_shape (tasks : List (Nat × Nat)) :
    (find_slots_for_date tasks).map slot_shape = day_shape := by
  rw [find_slots_for_date, _exclude_meal_times]
  rw [List.filter_eq_self.mpr ?hall]
  case hall =>
    intro s hs
    have hmem : slot_shape s ∈ day_shape := by
      rw [← big_shape_eq tasks]
      exact List.mem_map_of_mem _ hs
    have hgen : ∀ x ∈ day_shape, (!(x.1 / 60 == 12) && !(x.1 / 60 == 18)) = true := by
      decide
    exact hgen _ hmem
  exact big_shape_eq tasks

/-- Transfer of a per-shape property to every emitted slot. -/
theorem shape_prop {P : Nat × Nat × String × Int → Prop}
    (hP : ∀ x ∈ day_shape, P x) (tasks : List (Nat × Nat)) :
    ∀ s ∈ find_slots_for_date tasks, P (slot_shape s) := by
  intro s hs
  exact hP _ (find_slots_shape tasks ▸ List.mem_map_of_mem _ hs)

/-- Transfer of a pairwise shape relation to the emitted slot list. -/
theorem shape_pairwise {R : Nat × Nat × String × Int → Nat × Nat × String × Int → Prop}
    (hR : day_shape.Pairwise R) (tasks : List (Nat × Nat)) :
    (find_slots_for_date tasks).Pairwise fun a b => R (slot_shape a) (slot_shape b) := by
  refine List.pairwise_map.mp ?p
  rw [find_slots_shape tasks]
  exact hR

/-! ## Claim theorems -/

/-- C1 (code bug): the `switch_cost` table stores the income/growth
entry under the key `("income", "growth")`, but the loop canonicalizes
every adjacent pair with `tuple(sorted(...))`, which orders that pair as
`("growth", "income")`; the stored entry is therefore unreachable and an
adjacent income↔growth pair is charged the lookup default of 15 minutes,
not the tabled 10 the claim (and the table itself) states — in either
adjacency order.  This theorem evaluates the code at the failing input
and exhibits the mechanism. -/
theorem claim_C1_income_growth_switch_cost_bug :
    calculate_schedule_quality
        [⟨some "income", some 30⟩, ⟨some "growth", some 30⟩] =
      some ⟨15, (0, 30, 30, 0)⟩ ∧
    calculate_schedule_quality
        [⟨some "growth", some 30⟩, ⟨some "income", some 30⟩] =
      some ⟨15, (0, 30, 30, 0)⟩ ∧
    spec_pair_cost "income" "growth" = 10 ∧
    (("income", "growth"), 10) ∈ switch_cost ∧
    sorted_pair "income" "growth" = ("growth", "income") ∧
    switch_cost_lookup ("growth", "income") = 15 := by
  decide

/-- C2 (counterexample): the scenario text does contain a
duration-adjustment keyword — its first character 写 is a write marker —
so `_estimate_duration` returns 60 + 15 = 75, not the claimed 60. -/
theorem claim_C2_counterexample :
    _classify_domain "写论文准备考试" = "academic" ∧
    anyIn write_markers "写论文准备考试" = true ∧
    _estimate_duration "写论文准备考试" "academic" ≠ 60 := by
  decide

/-- C2 (amended): classifying "写论文准备考试" yields domain academic,
priority 3 minus the academic boost, and estimated minutes 60 + 15 = 75
because the write marker 写 is present. -/
theorem claim_C2_amended :
    _classify_domain "写论文准备考试" = "academic" ∧
    _estimate_priority "写论文准备考试" "academic" = 3 - priority_boost "academic" ∧
    _estimate_duration "写论文准备考试" "academic" = 60 + 15 := by
  decide

/-- C8: for every text, duration estimation starts from the per-domain
base (academic 60, income 45, growth 40, life 30) and applies at most
one first-match-wins adjustment, as restated by `spec_duration_adjust`;
and "回复邮件" under life yields max 15 (30 - 15) = 15. -/
theorem claim_C8_duration_rule :
    (∀ text : String,
      _estimate_duration text "academic" = spec_duration_adjust text 60 ∧
      _estimate_duration text "income" = spec_duration_adjust text 45 ∧
      _estimate_duration text "growth" = spec_duration_adjust text 40 ∧
      _estimate_duration text "life" = spec_duration_adjust text 30) ∧
    _estimate_duration "回复邮件" "life" = max 15 (30 - 15) ∧
    _estimate_duration "回复邮件" "life" = 15 := by
  exact ⟨fun text => ⟨rfl, rfl, rfl, rfl⟩, by decide, by decide⟩

/-- C5: for every existing-task list, the emitted slots are strictly
chronological by start, pairwise disjoint, never intersect the lunch
hour 12:00–13:00 or the dinner hour 18:00–19:00, and none starts in
hour 12 or 18 (the meal-hour slots are dropped, not merely flagged). -/
theorem claim_C5_slot_list_invariants (existing_tasks : List (Nat × Nat)) :
    ((find_slots_for_date existing_tasks).Pairwise fun a b => a.start < b.start) ∧
    ((find_slots_for_date existing_tasks).Pairwise fun a b => a.stop ≤ b.start) ∧
    (∀ s ∈ find_slots_for_date existing_tasks, s.stop ≤ 12 * 60 ∨ 13 * 60 ≤ s.start) ∧
    (∀ s ∈ find_slots_for_date existing_tasks, s.stop ≤ 18 * 60 ∨ 19 * 60 ≤ s.start) ∧
    (∀ s ∈ find_slots_for_date existing_tasks, s.start / 60 ≠ 12 ∧ s.start / 60 ≠ 18) := by
  refine ⟨?_, ?_, ?_, ?_, ?_⟩
  · exact @shape_pairwise (fun x y => x.1 < y.1) (by decide) existing_tasks
  · exact @shape_pairwise (fun x y => x.2.1 ≤ y.1) (by decide) existing_tasks
  · exact @shape_prop (fun x => x.2.1 ≤ 12 * 60 ∨ 13 * 60 ≤ x.1) (by decide) existing_tasks
  · exact @shape_prop (fun x => x.2.1 ≤ 18 * 60 ∨ 19 * 60 ≤ x.1) (by decide) existing_tasks
  · exact @shape_prop (fun x => x.1 / 60 ≠ 12 ∧ x.1 / 60 ≠ 18) (by decide) existing_tasks

/-- C5 witness at a concrete day: the 13:00 slot of an empty day. -/
theorem claim_C5_witness :
    ((⟨780, 810, "income", true, 6⟩ : TimeSlot).stop ≤ 12 * 60 ∨
      13 * 60 ≤ (⟨780, 810, "income", true, 6⟩ : TimeSlot).start) ∧
    ((⟨780, 810, "income", true, 6⟩ : TimeSlot).start / 60 ≠ 12 ∧
      (⟨780, 810, "income", true, 6⟩ : TimeSlot).start / 60 ≠ 18) := by
  have hmem : (⟨780, 810, "income", true, 6⟩ : TimeSlot) ∈ find_slots_for_date [] := by
    simp [find_slots_for_date, _exclude_meal_times, make_slots, hour_domain, conflicts,
      List.filter_cons]
  exact ⟨(claim_C5_slot_list_invariants []).2.2.1 _ hmem,
    (claim_C5_slot_list_invariants []).2.2.2.2 _ hmem⟩

/-- C6: the domain of every emitted slot is `hour_domain` of its start hour,
for every existing-task list; and the hour rule crosses day-part
boundaries — the 10:00 slot generated inside the morning day-part
(energy 8) is already "income", as is the 13:00 afternoon slot
(energy 6). -/
theorem claim_C6_domain_from_start_hour (existing_tasks : List (Nat × Nat)) :
    (∀ s ∈ find_slots_for_date existing_tasks, s.domain = hour_domain (s.start / 60)) ∧
    (∃ s ∈ find_slots_for_date existing_tasks,
      s.energy_level = 8 ∧ s.start = 600 ∧ s.domain = "income") ∧
    (∃ s ∈ find_slots_for_date existing_tasks,
      s.energy_level = 6 ∧ s.start = 780 ∧ s.domain = "income") := by
  refine ⟨@shape_prop (fun x => x.2.2.1 = hour_domain (x.1 / 60)) (by decide) existing_tasks,
    ?_, ?_⟩
  · have hm : ((600, 630, "income", (8 : Int)) : Nat × Nat × String × Int) ∈
        (find_slots_for_date existing_tasks).map slot_shape := by
      rw [find_slots_shape]; decide
    obtain ⟨s, hs, he⟩ := List.mem_map.mp hm
    exact ⟨s, hs, congrArg (fun x => x.2.2.2) he, congrArg (fun x => x.1) he,
      congrArg (fun x => x.2.2.1) he⟩
  · have hm : ((780, 810, "income", (6 : Int)) : Nat × Nat × String × Int) ∈
        (find_slots_for_date existing_tasks).map slot_shape := by
      rw [find_slots_shape]; decide
    obtain ⟨s, hs, he⟩ := List.mem_map.mp hm
    exact ⟨s, hs, congrArg (fun x => x.2.2.2) he, congrArg (fun x => x.1) he,
      congrArg (fun x => x.2.2.1) he⟩

/-- C6 witness at a concrete day: the 10:00 slot of an empty day obeys
the hour→domain rule. -/
theorem claim_C6_witness :
    (⟨600, 630, "income", true, 8⟩ : TimeSlot).domain =
      hour_domain ((⟨600, 630, "income", true, 8⟩ : TimeSlot).start / 60) := by
  have hmem : (⟨600, 630, "income", true, 8⟩ : TimeSlot) ∈ find_slots_for_date [] := by
    simp [find_slots_for_date, _exclude_meal_times, make_slots, hour_domain, conflicts,
      List.filter_cons]
  exact (claim_C6_domain_from_start_hour []).1 _ hmem

/-- C9: every emitted slot is exactly 30 minutes long (each day-part
span is a multiple of 30, so no partial boundary slot exists), and its
energy level is 8, 6 or 4, hence within [1, 10] — for every
existing-task list. -/
theorem claim_C9_thirty_minute_slots (existing_tasks : List (Nat × Nat)) :
    ∀ s ∈ find_slots_for_date existing_tasks,
      duration_minutes s = 30 ∧
      (s.energy_level = 8 ∨ s.energy_level = 6 ∨ s.energy_level = 4) ∧
      1 ≤ s.energy_level ∧ s.energy_level ≤ 10 := by
  exact @shape_prop
    (fun x => ((x.2.1 : Int) - (x.1 : Int) = 30) ∧
      (x.2.2.2 = 8 ∨ x.2.2.2 = 6 ∨ x.2.2.2 = 4) ∧ 1 ≤ x.2.2.2 ∧ x.2.2.2 ≤ 10)
    (by decide) existing_tasks

/-- C9 witness at a concrete day: the 19:00 slot of an empty day. -/
theorem claim_C9_witness :
    duration_minutes ⟨1140, 1170, "life", true, 4⟩ = 30 ∧
    (⟨1140, 1170, "life", true, 4⟩ : TimeSlot).energy_level = 4 := by
  have hmem : (⟨1140, 1170, "life", true, 4⟩ : TimeSlot) ∈ find_slots_for_date [] := by
    simp [find_slots_for_date, _exclude_meal_times, make_slots, hour_domain, conflicts,
      List.filter_cons]
  have h := claim_C9_thirty_minute_slots [] _ hmem
  exact ⟨h.1, by decide⟩

/-! ## Task sequencing and slot selection: helper lemmas and claims -/

theorem insert_desc_perm (x : PTask) : ∀ l : List PTask, (insert_desc x l).Perm (x :: l)
  | [] => List.Perm.refl _
  | y :: ys => by
    rw [insert_desc]
    split
    · exact List.Perm.refl _
    · exact ((insert_desc_perm x ys).cons y).trans (List.Perm.swap x y ys)

theorem sort_desc_perm : ∀ l : List PTask, (sort_desc l).Perm l
  | [] => List.Perm.refl _
  | x :: l => (insert_desc_perm x (sort_desc l)).trans ((sort_desc_perm l).cons x)

theorem mem_insert_desc {t x : PTask} {l : List PTask} :
    t ∈ insert_desc x l ↔ t = x ∨ t ∈ l := by
  rw [(insert_desc_perm x l).mem_iff, List.mem_cons]

theorem insert_desc_sorted {x : PTask} : ∀ {l : List PTask},
    l.Pairwise (fun a b => task_priority b ≤ task_priority a) →
    (insert_desc x l).Pairwise (fun a b => task_priority b ≤ task_priority a)
  | [], _ => List.pairwise_singleton _ _
  | y :: ys, h => by
    rw [insert_desc]
    rcases List.pairwise_cons.mp h with ⟨hy, hys⟩
    split
    case isTrue hxy =>
      refine List.pairwise_cons.mpr ⟨?_, h⟩
      intro z hz
      rcases List.mem_cons.mp hz with rfl | hz
      · exact hxy
      · exact le_trans (hy z hz) hxy
    case isFalse hxy =>
      refine List.pairwise_cons.mpr ⟨?_, insert_desc_sorted hys⟩
      intro z hz
      rcases mem_insert_desc.mp hz with rfl | hz
      · exact le_of_not_le hxy
      · exact hy z hz

theorem sort_desc_sorted : ∀ l : List PTask,
    (sort_desc l).Pairwise (fun a b => task_priority b ≤ task_priority a)
  | [] => List.Pairwise.nil
  | x :: l => insert_desc_sorted (sort_desc_sorted l)

theorem mem_sort_desc {t : PTask} {l : List PTask} : t ∈ sort_desc l ↔ t ∈ l :=
  (sort_desc_perm l).mem_iff

/-- Unfolding: `optimize_task_sequence` on a list of two or more tasks is the
four sorted groups concatenated. -/
theorem optimize_eq_groups {tasks : List PTask} (h : ¬ tasks.length ≤ 1) :
    optimize_task_sequence tasks =
      sort_desc (tasks.filter fun t => task_domain t == "academic") ++
      (sort_desc (tasks.filter fun t => task_domain t == "income") ++
      (sort_desc (tasks.filter fun t => task_domain t == "growth") ++
      sort_desc (tasks.filter fun t => task_domain t == "life"))) := by
  rw [optimize_task_sequence, if_neg h]
  simp [domains_order]

theorem mem_group {tasks : List PTask} {d : String} {t : PTask}
    (ht : t ∈ sort_desc (tasks.filter fun u => task_domain u == d)) :
    task_domain t = d := by
  have := List.of_mem_filter (mem_sort_desc.mp ht)
  exact beq_iff_eq.mp this

theorem filter_group_self {tasks : List PTask} {d : String} :
    (sort_desc (tasks.filter fun u => task_domain u == d)).filter
      (fun u => task_domain u == d) =
      sort_desc (tasks.filter fun u => task_domain u == d) :=
  List.filter_eq_self.mpr fun t ht => beq_iff_eq.mpr (mem_group ht)

theorem filter_group_other {tasks : List PTask} {d d₂ : String} (hne : d₂ ≠ d) :
    (sort_desc (tasks.filter fun u => task_domain u == d₂)).filter
      (fun u => task_domain u == d) = [] := by
  rw [List.filter_eq_nil_iff]
  intro t ht hcontra
  exact hne ((mem_group ht).symm.trans (beq_iff_eq.mp hcontra))


theorem optimize_short {tasks : List PTask} (h : tasks.length ≤ 1) :
    optimize_task_sequence tasks = tasks := by
  rw [optimize_task_sequence, if_pos h]

theorem sort_desc_short : ∀ {l : List PTask}, l.length ≤ 1 → sort_desc l = l
  | [], _ => rfl
  | [t], _ => rfl

theorem optimize_group_filter (tasks : List PTask) :
    ∀ d ∈ domains_order,
      (optimize_task_sequence tasks).filter (fun t => task_domain t == d) =
        sort_desc (tasks.filter fun t => task_domain t == d) := by
  intro d hd
  by_cases hlen : tasks.length ≤ 1
  · rw [optimize_short hlen]
    match tasks, hlen with
    | [], _ => rfl
    | [t], _ =>
      by_cases h : task_domain t == d
      · simp [List.filter_cons, h, sort_desc, insert_desc]
      · simp [List.filter_cons, h, sort_desc]
  · rw [optimize_eq_groups hlen]
    rw [List.filter_append, List.filter_append, List.filter_append]
    simp only [domains_order, List.mem_cons, List.mem_singleton, List.not_mem_nil,
      or_false] at hd
    rcases hd with rfl | rfl | rfl | rfl
    · rw [filter_group_self, filter_group_other (by decide), filter_group_other (by decide),
        filter_group_other (by decide)]
      simp
    · rw [filter_group_other (by decide), filter_group_self, filter_group_other (by decide),
        filter_group_other (by decide)]
      simp
    · rw [filter_group_other (by decide), filter_group_other (by decide), filter_group_self,
        filter_group_other (by decide)]
      simp
    · rw [filter_group_other (by decide), filter_group_other (by decide),
        filter_group_other (by decide), filter_group_self]
      simp

theorem optimize_rank_sorted (tasks : List PTask) :
    (optimize_task_sequence tasks).Pairwise fun a b =>
      dom_rank (task_domain a) ≤ dom_rank (task_domain b) := by
  by_cases hlen : tasks.length ≤ 1
  · rw [optimize_short hlen]
    match tasks, hlen with
    | [], _ => exact List.Pairwise.nil
    | [t], _ => exact List.pairwise_singleton _ _
  · rw [optimize_eq_groups hlen]
    have hsame : ∀ (d : String) (l : List PTask),
        (∀ t ∈ l, task_domain t = d) → l.Pairwise fun a b =>
          dom_rank (task_domain a) ≤ dom_rank (task_domain b) := by
      intro d l hl
      refine List.pairwise_of_forall_mem_list ?_
      intro a ha b hb
      rw [hl a ha, hl b hb]
    refine List.pairwise_append.mpr ⟨hsame _ _ fun t ht => mem_group ht, ?_, ?_⟩
    · refine List.pairwise_append.mpr ⟨hsame _ _ fun t ht => mem_group ht, ?_, ?_⟩
      · refine List.pairwise_append.mpr ⟨hsame _ _ fun t ht => mem_group ht,
          hsame _ _ fun t ht => mem_group ht, ?_⟩
        intro a ha b hb
        rw [mem_group ha, mem_group hb]
        decide
      · intro a ha b hb
        rcases List.mem_append.mp hb with hb | hb
        · rw [mem_group ha, mem_group hb]
          decide
        · rw [mem_group ha, mem_group hb]
          decide
    · intro a ha b hb
      rcases List.mem_append.mp hb with hb | hb
      · rw [mem_group ha, mem_group hb]
        decide
      rcases List.mem_append.mp hb with hb | hb
      · rw [mem_group ha, mem_group hb]
        decide
      · rw [mem_group ha, mem_group hb]
        decide

theorem filter_or_perm (p q : PTask → Bool) (hdisj : ∀ x, ¬(p x = true ∧ q x = true)) :
    ∀ l : List PTask, (l.filter p ++ l.filter q).Perm (l.filter fun x => p x || q x)
  | [] => by simp
  | x :: l => by
    by_cases hp : p x = true
    · have hq : ¬ q x = true := fun h => hdisj x ⟨hp, h⟩
      rw [List.filter_cons_of_pos hp, List.filter_cons_of_neg hq,
        List.filter_cons_of_pos (by simp [hp]), List.cons_append]
      exact (filter_or_perm p q hdisj l).cons x
    · by_cases hq : q x = true
      · rw [List.filter_cons_of_neg hp, List.filter_cons_of_pos hq,
          List.filter_cons_of_pos (by simp [hq])]
        exact List.perm_middle.trans ((filter_or_perm p q hdisj l).cons x)
      · rw [List.filter_cons_of_neg hp, List.filter_cons_of_neg hq,
          List.filter_cons_of_neg (by simp [hp, hq])]
        exact filter_or_perm p q hdisj l

theorem optimize_perm_filter (tasks : List PTask) (h2 : 2 ≤ tasks.length) :
    (optimize_task_sequence tasks).Perm (tasks.filter fun t =>
      task_domain t == "academic" || (task_domain t == "income" ||
      (task_domain t == "growth" || task_domain t == "life"))) := by
  have hlen : ¬ tasks.length ≤ 1 := by omega
  rw [optimize_eq_groups hlen]
  have hgl : ∀ x : PTask, ¬((task_domain x == "growth") = true ∧
      (task_domain x == "life") = true) := by
    intro x ⟨h1, h2⟩
    rw [beq_iff_eq] at h1 h2
    exact absurd (h1.symm.trans h2) (by decide)
  have higl : ∀ x : PTask, ¬((task_domain x == "income") = true ∧
      ((task_domain x == "growth") || (task_domain x == "life")) = true) := by
    intro x ⟨h1, hor⟩
    rw [beq_iff_eq] at h1
    rw [h1] at hor
    exact absurd hor (by decide)
  have hial : ∀ x : PTask, ¬((task_domain x == "academic") = true ∧
      ((task_domain x == "income") || ((task_domain x == "growth") ||
        (task_domain x == "life"))) = true) := by
    intro x ⟨h1, hor⟩
    rw [beq_iff_eq] at h1
    rw [h1] at hor
    exact absurd hor (by decide)
  have m1 := filter_or_perm (fun t => task_domain t == "growth")
    (fun t => task_domain t == "life") hgl tasks
  have m2 := filter_or_perm (fun t => task_domain t == "income")
    (fun t => (task_domain t == "growth") || (task_domain t == "life")) higl tasks
  have m3 := filter_or_perm (fun t => task_domain t == "academic")
    (fun t => (task_domain t == "income") || ((task_domain t == "growth") ||
      (task_domain t == "life"))) hial tasks
  refine ((sort_desc_perm _).append ((sort_desc_perm _).append
    ((sort_desc_perm _).append (sort_desc_perm _)))).trans ?_
  refine ((List.Perm.refl _).append ((List.Perm.refl _).append m1)).trans ?_
  refine ((List.Perm.refl _).append m2).trans ?_
  exact m3

theorem optimize_perm_of_all (tasks : List PTask)
    (hall : ∀ t ∈ tasks, task_domain t ∈ domains_order) :
    (optimize_task_sequence tasks).Perm tasks := by
  by_cases hlen : tasks.length ≤ 1
  · rw [optimize_short hlen]
  · have h2 : 2 ≤ tasks.length := by omega
    have hperm := optimize_perm_filter tasks h2
    rwa [List.filter_eq_self.mpr ?_] at hperm
    intro t ht
    have h := hall t ht
    simp only [domains_order, List.mem_cons, List.mem_singleton, List.not_mem_nil,
      or_false] at h
    rcases h with h | h | h | h <;> simp [h]


/-- C4: `optimize_task_sequence` groups tasks by domain (each domain
group of the output is the stable priority-descending sort of the same
group of the input), emits groups in the fixed order academic, income,
growth, life (domain rank is monotone along the output), sorts within a
group by priority value descending (priority 5 before priority 1), and
on the three-task life/academic/income scenario returns domains in the
order academic, income, life for every one of the six input orders. -/
theorem claim_C4_optimize_task_sequence (tasks : List PTask) :
    (∀ d ∈ domains_order,
      (optimize_task_sequence tasks).filter (fun t => task_domain t == d) =
        sort_desc (tasks.filter fun t => task_domain t == d)) ∧
    ((optimize_task_sequence tasks).Pairwise fun a b =>
      dom_rank (task_domain a) ≤ dom_rank (task_domain b)) ∧
    (∀ d ∈ domains_order,
      ((optimize_task_sequence tasks).filter (fun t => task_domain t == d)).Pairwise
        fun a b => task_priority b ≤ task_priority a) ∧
    optimize_task_sequence
        [⟨some "academic", some 1, 0⟩, ⟨some "academic", some 5, 1⟩] =
      [⟨some "academic", some 5, 1⟩, ⟨some "academic", some 1, 0⟩] ∧
    ((optimize_task_sequence
        [⟨some "life", none, 0⟩, ⟨some "academic", none, 1⟩, ⟨some "income", none, 2⟩]).map
          task_domain = ["academic", "income", "life"] ∧
     (optimize_task_sequence
        [⟨some "life", none, 0⟩, ⟨some "income", none, 2⟩, ⟨some "academic", none, 1⟩]).map
          task_domain = ["academic", "income", "life"] ∧
     (optimize_task_sequence
        [⟨some "academic", none, 1⟩, ⟨some "life", none, 0⟩, ⟨some "income", none, 2⟩]).map
          task_domain = ["academic", "income", "life"] ∧
     (optimize_task_sequence
        [⟨some "academic", none, 1⟩, ⟨some "income", none, 2⟩, ⟨some "life", none, 0⟩]).map
          task_domain = ["academic", "income", "life"] ∧
     (optimize_task_sequence
        [⟨some "income", none, 2⟩, ⟨some "life", none, 0⟩, ⟨some "academic", none, 1⟩]).map
          task_domain = ["academic", "income", "life"] ∧
     (optimize_task_sequence
        [⟨some "income", none, 2⟩, ⟨some "academic", none, 1⟩, ⟨some "life", none, 0⟩]).map
          task_domain = ["academic", "income", "life"]) := by
  refine ⟨optimize_group_filter tasks, optimize_rank_sorted tasks, ?_, by decide, by decide⟩
  intro d hd
  rw [optimize_group_filter tasks d hd]
  exact sort_desc_sorted _

/-- C4 witness: the group-filter clause applied to a concrete
two-task list at the academic domain. -/
theorem claim_C4_witness :
    "academic" ∈ domains_order ∧
    (optimize_task_sequence
        [⟨some "life", some 2, 0⟩, ⟨some "academic", some 4, 1⟩]).filter
      (fun t => task_domain t == "academic") =
      sort_desc ([(⟨some "life", some 2, 0⟩ : PTask), ⟨some "academic", some 4, 1⟩].filter
        fun t => task_domain t == "academic") :=
  ⟨by decide, (claim_C4_optimize_task_sequence
    [⟨some "life", some 2, 0⟩, ⟨some "academic", some 4, 1⟩]).1 "academic" (by decide)⟩

/-- C10 counterexample: a single task with the foreign domain "sleep"
is returned unchanged by the length-at-most-one short-circuit, so the
output is not restricted to the four known domains as claimed. -/
theorem claim_C10_counterexample :
    optimize_task_sequence [⟨some "sleep", none, 0⟩] = [⟨some "sleep", none, 0⟩] ∧
    task_domain ⟨some "sleep", none, 0⟩ ∉ domains_order := by
  refine ⟨rfl, by decide⟩

/-- C10 (amended): for inputs of length at least 2 the output is a
permutation of exactly those input tasks whose (defaulted) domain is
academic, income, growth or life — foreign-domain tasks are silently
dropped; inputs of length 0 or 1 are returned unchanged (even with a
foreign domain); and when every domain is one of the four the output is
a permutation of the input. -/
theorem claim_C10_amended_filter (tasks : List PTask) :
    (2 ≤ tasks.length →
      (optimize_task_sequence tasks).Perm (tasks.filter fun t =>
        task_domain t == "academic" || (task_domain t == "income" ||
        (task_domain t == "growth" || task_domain t == "life")))) ∧
    (tasks.length ≤ 1 → optimize_task_sequence tasks = tasks) ∧
    ((∀ t ∈ tasks, task_domain t ∈ domains_order) →
      (optimize_task_sequence tasks).Perm tasks) :=
  ⟨optimize_perm_filter tasks, optimize_short, optimize_perm_of_all tasks⟩

/-- C10 witness: the permutation clause applied to a concrete
two-task list containing one foreign-domain task. -/
theorem claim_C10_witness :
    2 ≤ ([⟨some "life", none, 0⟩, ⟨some "sleep", none, 1⟩] : List PTask).length ∧
    (optimize_task_sequence [⟨some "life", none, 0⟩, ⟨some "sleep", none, 1⟩]).Perm
      ([(⟨some "life", none, 0⟩ : PTask), ⟨some "sleep", none, 1⟩].filter fun t =>
        task_domain t == "academic" || (task_domain t == "income" ||
        (task_domain t == "growth" || task_domain t == "life"))) :=
  ⟨by decide, (claim_C10_amended_filter
    [⟨some "life", none, 0⟩, ⟨some "sleep", none, 1⟩]).1 (by decide)⟩


theorem pick_best_spec (f : TimeSlot → Int) :
    ∀ (l : List TimeSlot) (init : TimeSlot),
      ((init :: l).Pairwise fun a b => a.start ≤ b.start) →
      pick_best f init l ∈ init :: l ∧
      (∀ y ∈ init :: l, f y ≤ f (pick_best f init l)) ∧
      (∀ y ∈ init :: l, f y = f (pick_best f init l) →
        (pick_best f init l).start ≤ y.start)
  | [], init => by
    intro _
    refine ⟨List.mem_singleton_self init, ?_, ?_⟩
    · intro y hy
      rw [List.mem_singleton.mp hy]
      exact le_refl _
    · intro y hy _
      rw [List.mem_singleton.mp hy]
      exact le_refl _
  | c :: l, init => by
    intro hp
    rcases List.pairwise_cons.mp hp with ⟨hinit, hcl⟩
    rcases List.pairwise_cons.mp hcl with ⟨hc, hl⟩
    have hstep : pick_best f init (c :: l) =
        pick_best f (if f init < f c then c else init) l := by
      rw [pick_best, List.foldl_cons]
      rfl
    have hp' : ((if f init < f c then c else init) :: l).Pairwise
        fun a b => a.start ≤ b.start := by
      refine List.pairwise_cons.mpr ⟨?_, hl⟩
      intro y hy
      split
      · exact hc y hy
      · exact hinit y (List.mem_cons_of_mem c hy)
    obtain ⟨hmem, hmax, hfirst⟩ := pick_best_spec f l (if f init < f c then c else init) hp'
    rw [hstep]
    refine ⟨?_, ?_, ?_⟩
    · rcases List.mem_cons.mp hmem with h | h
      · rw [h]
        split
        · exact List.mem_cons_of_mem init (List.mem_cons_self c l)
        · exact List.mem_cons_self init (c :: l)
      · exact List.mem_cons_of_mem init (List.mem_cons_of_mem c h)
    · intro y hy
      rcases List.mem_cons.mp hy with rfl | hy2
      · refine le_trans ?_ (hmax _ (List.mem_cons_self _ l))
        split
        case isTrue h => exact le_of_lt h
        case isFalse h => exact le_refl _
      rcases List.mem_cons.mp hy2 with rfl | hy3
      · refine le_trans ?_ (hmax _ (List.mem_cons_self _ l))
        split
        case isTrue h => exact le_refl _
        case isFalse h => exact le_of_not_lt h
      · exact hmax y (List.mem_cons_of_mem _ hy3)
    · intro y hy hfy
      rcases List.mem_cons.mp hy with heq | hy2
      · subst heq
        by_cases hcase : f y < f c
        · exfalso
          have hif : (if f y < f c then c else y) = c := if_pos hcase
          rw [hif] at hmax hfy
          have h1 : f c ≤ f (pick_best f c l) := hmax c (List.mem_cons_self c l)
          rw [← hfy] at h1
          exact absurd (lt_of_lt_of_le hcase h1) (lt_irrefl _)
        · have hif : (if f y < f c then c else y) = y := if_neg hcase
          rw [hif] at hfirst hfy ⊢
          exact hfirst y (List.mem_cons_self y l) hfy
      rcases List.mem_cons.mp hy2 with heq | hy3
      · subst heq
        by_cases hcase : f init < f y
        · have hif : (if f init < f y then y else init) = y := if_pos hcase
          rw [hif] at hfirst hfy ⊢
          exact hfirst y (List.mem_cons_self y l) hfy
        · have hif : (if f init < f y then y else init) = init := if_neg hcase
          rw [hif] at hfirst hmax hfy ⊢
          have hige : f init ≤ f (pick_best f init l) :=
            hmax init (List.mem_cons_self init l)
          have hieq : f init = f (pick_best f init l) :=
            le_antisymm hige (by rw [← hfy]; exact le_of_not_lt hcase)
          exact le_trans (hfirst init (List.mem_cons_self init l) hieq)
            (hinit y (List.mem_cons_self y l))
      · exact hfirst y (List.mem_cons_of_mem _ hy3) hfy


/-- C7: `find_best_slot_for_task` returns `none` exactly when no slot
in the candidate list is both available and long enough — the
NoSlotAvailable condition as an explicit value, not an error. -/
theorem claim_C7_none_iff_no_candidate (task_duration : Int) (domain : String)
    (available_slots : List TimeSlot) (priority : Int) :
    find_best_slot_for_task task_duration domain available_slots priority = none ↔
      ∀ s ∈ available_slots,
        ¬(s.available = true ∧ task_duration ≤ duration_minutes s) := by
  have key : find_best_slot_for_task task_duration domain available_slots priority = none ↔
      available_slots.filter (suitable task_duration) = [] := by
    rw [find_best_slot_for_task]
    cases hfil : available_slots.filter (suitable task_duration) with
    | nil => simp
    | cons a rest => simp
  rw [key, List.filter_eq_nil_iff]
  constructor
  · intro h s hs hboth
    exact h s hs (by simp [suitable, hboth.1, hboth.2])
  · intro h s hs hsuit
    rw [suitable, Bool.and_eq_true, decide_eq_true_eq] at hsuit
    exact h s hs hsuit

/-- C7 witness: the empty candidate list yields `none`. -/
theorem claim_C7_witness :
    find_best_slot_for_task 30 "life" [] 4 = none :=
  (claim_C7_none_iff_no_candidate 30 "life" [] 4).mpr (by simp)

/-- C3: on a chronologically ordered candidate list (and a positive
task duration, which rules out the zero-length-slot division), a slot
returned by `find_best_slot_for_task` is a qualifying slot of maximal
score, and among equal-score qualifiers it has the earliest start. -/
theorem claim_C3_best_slot (task_duration : Int) (domain : String)
    (available_slots : List TimeSlot) (priority : Int)
    (hpos : 0 < task_duration)
    (hchron : available_slots.Pairwise fun a b => a.start ≤ b.start) :
    ∀ s, find_best_slot_for_task task_duration domain available_slots priority = some s →
      s ∈ available_slots ∧ s.available = true ∧ task_duration ≤ duration_minutes s ∧
      (∀ s₂ ∈ available_slots, s₂.available = true → task_duration ≤ duration_minutes s₂ →
        score task_duration domain priority s₂ ≤ score task_duration domain priority s) ∧
      (∀ s₂ ∈ available_slots, s₂.available = true → task_duration ≤ duration_minutes s₂ →
        score task_duration domain priority s₂ = score task_duration domain priority s →
        s.start ≤ s₂.start) := by
  intro s hs
  rw [find_best_slot_for_task] at hs
  cases hfil : available_slots.filter (suitable task_duration) with
  | nil =>
    rw [hfil] at hs
    exact Option.noConfusion hs
  | cons a rest =>
    rw [hfil] at hs
    have hpmem : s = pick_best (score task_duration domain priority) a rest :=
      (Option.some.inj hs).symm
    have hpair : (a :: rest).Pairwise fun x y => x.start ≤ y.start := by
      rw [← hfil]
      exact hchron.sublist (List.filter_sublist _)
    obtain ⟨hmem, hmax, hfirst⟩ :=
      pick_best_spec (score task_duration domain priority) rest a hpair
    rw [← hpmem] at hmem hmax hfirst
    have hsfil : s ∈ available_slots.filter (suitable task_duration) := by
      rw [hfil]
      exact hmem
    have hsa : s.available = true ∧ task_duration ≤ duration_minutes s := by
      have hsuit := List.of_mem_filter hsfil
      rwa [suitable, Bool.and_eq_true, decide_eq_true_eq] at hsuit
    refine ⟨List.mem_of_mem_filter hsfil, hsa.1, hsa.2, ?_, ?_⟩
    · intro s₂ hs₂ hav hdur
      have hin : s₂ ∈ available_slots.filter (suitable task_duration) :=
        List.mem_filter.mpr ⟨hs₂, by simp [suitable, hav, hdur]⟩
      rw [hfil] at hin
      exact hmax s₂ hin
    · intro s₂ hs₂ hav hdur heq
      have hin : s₂ ∈ available_slots.filter (suitable task_duration) :=
        List.mem_filter.mpr ⟨hs₂, by simp [suitable, hav, hdur]⟩
      rw [hfil] at hin
      exact hfirst s₂ hin heq

/-- C3 witness: the selection applied to a concrete singleton
candidate list. -/
theorem claim_C3_witness :
    (0 : Int) < 30 ∧
    find_best_slot_for_task 30 "income" [⟨600, 630, "income", true, 8⟩] 3 =
      some ⟨600, 630, "income", true, 8⟩ ∧
    (⟨600, 630, "income", true, 8⟩ : TimeSlot) ∈ [(⟨600, 630, "income", true, 8⟩ : TimeSlot)] ∧
    (⟨600, 630, "income", true, 8⟩ : TimeSlot).available = true ∧
    (30 : Int) ≤ duration_minutes ⟨600, 630, "income", true, 8⟩ := by
  have h := claim_C3_best_slot 30 "income" [⟨600, 630, "income", true, 8⟩] 3
    (by decide) (List.pairwise_singleton _ _) ⟨600, 630, "income", true, 8⟩ (by decide)
  exact ⟨by decide, by decide, h.1, h.2.1, h.2.2.1⟩


end LifeMS
